import Mathlib

/-!
# Verification of the mkdocs_rag retrieval-and-chunking pipeline

A shallow embedding of the core pipeline of the repository:
`backend/rag/ingestion.py` (markdown normalisation, header-aware chunking,
sliding-window re-splitting, embedding loop, ingestion driver),
`backend/rag/vector_store.py` (distance-to-score conversion, search fallbacks)
and `backend/rag/retriever.py` (query path and prompt assembly).

Python strings are modelled as `String` / `List Char`; Python `re` operations
are modelled by explicit scanners that reproduce the leftmost, non-overlapping,
greedy-with-backtracking semantics of the concrete patterns the code uses.
Machine floats are modelled as `ℚ`; fallible calls return `Except`.
The MD5 digest is content independent, so functions that mint chunk ids are
parametrised by an arbitrary digest function `md5hex : String → String`.
-/

namespace MkdocsRag

/-- Python's whitespace class: the characters matched by `\s` (ASCII) and the
ones stripped by `str.strip()` / split on by `str.split()`. -/
def isPySpace (c : Char) : Bool :=
  c == ' ' || c == '\t' || c == '\n' || c == '\r' || c == '\x0b' || c == '\x0c'

/-- Python `str.strip()` on a character list. -/
def pyStrip (l : List Char) : List Char :=
  ((l.dropWhile isPySpace).reverse.dropWhile isPySpace).reverse

/-- Fuelled worker for `pyWords` (Python `str.split()` with no argument):
split on runs of whitespace, dropping empty pieces. -/
def pyWordsF : Nat → List Char → List (List Char)
  | 0, _ => []
  | _, [] => []
  | f + 1, c :: cs =>
    if isPySpace c then pyWordsF f cs
    else (c :: cs.takeWhile (fun d => !(isPySpace d))) ::
      pyWordsF f (cs.dropWhile (fun d => !(isPySpace d)))

/-- Python `text.split()`: the whitespace-delimited words of `l`. -/
def pyWords (l : List Char) : List (List Char) :=
  pyWordsF (l.length + 1) l

/-- Python `' '.join(words)`. -/
def joinSpace (ws : List (List Char)) : List Char :=
  List.intercalate [' '] ws

/-- Whether `needle` occurs at the head of `hay`. -/
def startsWithL : List Char → List Char → Bool
  | [], _ => true
  | _ :: _, [] => false
  | a :: as, b :: bs => a == b && startsWithL as bs

/-- Index of the first occurrence of `needle` in `hay`, if any. -/
def firstIdx (needle : List Char) : List Char → Option Nat
  | [] => if startsWithL needle [] then some 0 else none
  | c :: cs =>
    if startsWithL needle (c :: cs) then some 0
    else (firstIdx needle cs).map (· + 1)

/-- Fuelled worker for `subScan`.  `m` is an anchored matcher: applied to a
suffix, it returns `some (replacement, consumed)` when the pattern matches at
the start of that suffix.  The scan reproduces `re.sub`: find the leftmost
match, emit the replacement, resume right after the consumed characters.
Every matcher used below consumes at least one character, so the `max n 1`
guard never changes the semantics. -/
def subScanF (m : List Char → Option (List Char × Nat)) : Nat → List Char → List Char
  | 0, l => l
  | _, [] => []
  | f + 1, c :: cs =>
    match m (c :: cs) with
    | some (rep, n) => rep ++ subScanF m f ((c :: cs).drop (max n 1))
    | none => c :: subScanF m f cs

/-- Python `re.sub(pattern, repl, text)` for the anchored matcher `m`. -/
def subScan (m : List Char → Option (List Char × Nat)) (l : List Char) : List Char :=
  subScanF m (l.length + 1) l

/-- Matcher for `<[^>]+>` (HTML tags; replaced by the empty string). -/
def htmlTagM : List Char → Option (List Char × Nat)
  | '<' :: rest =>
    let inner := rest.takeWhile (fun c => c != '>')
    if inner = [] then none
    else
      match rest.drop inner.length with
      | '>' :: _ => some ([], inner.length + 2)
      | _ => none
  | _ => none

/-- Matcher for `\[([^\]]+)\]\([^\)]+\)` (markdown links; replaced by the
captured label `\1`). -/
def linkM : List Char → Option (List Char × Nat)
  | '[' :: rest =>
    let lab := rest.takeWhile (fun c => c != ']')
    if lab = [] then none
    else
      match rest.drop lab.length with
      | ']' :: '(' :: rest2 =>
        let url := rest2.takeWhile (fun c => c != ')')
        if url = [] then none
        else
          match rest2.drop url.length with
          | ')' :: _ => some (lab, lab.length + url.length + 4)
          | _ => none
      | _ => none
  | _ => none

/-- Matcher for the fenced-code pattern with `re.DOTALL`
(three backticks, a non-newline run, a newline, a lazy arbitrary run, three
backticks; replaced by the empty string). -/
def fenceM : List Char → Option (List Char × Nat)
  | '`' :: '`' :: '`' :: rest =>
    let info := rest.takeWhile (fun c => c != '\n')
    match rest.drop info.length with
    | '\n' :: rest2 =>
      match firstIdx ['`', '`', '`'] rest2 with
      | some i => some ([], 3 + info.length + 1 + i + 3)
      | none => none
    | _ => none
  | _ => none

/-- Matcher for inline code (backtick, `[^`+` inside, backtick; replaced by
the captured inner text). -/
def inlineCodeM : List Char → Option (List Char × Nat)
  | '`' :: rest =>
    let inner := rest.takeWhile (fun c => c != '`')
    if inner = [] then none
    else
      match rest.drop inner.length with
      | '`' :: _ => some (inner, inner.length + 2)
      | _ => none
  | _ => none

/-- Matcher for `#+\s+` (heading markers; replaced by the empty string). -/
def headerMarkM : List Char → Option (List Char × Nat)
  | '#' :: rest =>
    let hs := rest.takeWhile (fun c => c == '#')
    let ws := (rest.drop hs.length).takeWhile isPySpace
    if ws = [] then none else some ([], 1 + hs.length + ws.length)
  | _ => none

/-- Matcher for `\*\*([^\*]+)\*\*` (bold; replaced by the captured text). -/
def boldM : List Char → Option (List Char × Nat)
  | '*' :: '*' :: rest =>
    let inner := rest.takeWhile (fun c => c != '*')
    if inner = [] then none
    else
      match rest.drop inner.length with
      | '*' :: '*' :: _ => some (inner, inner.length + 4)
      | _ => none
  | _ => none

/-- Matcher for `\*([^\*]+)\*` (italic; replaced by the captured text). -/
def italicM : List Char → Option (List Char × Nat)
  | '*' :: rest =>
    let inner := rest.takeWhile (fun c => c != '*')
    if inner = [] then none
    else
      match rest.drop inner.length with
      | '*' :: _ => some (inner, inner.length + 2)
      | _ => none
  | _ => none

/-- Matcher for `\n{3,}` (three or more newlines; replaced by two). -/
def blankLinesM : List Char → Option (List Char × Nat)
  | '\n' :: '\n' :: '\n' :: rest =>
    let more := rest.takeWhile (fun c => c == '\n')
    some (['\n', '\n'], 3 + more.length)
  | _ => none

/-- Function `clean_markdown` from `backend/rag/ingestion.py`: the eight `re.sub`
passes in source order, followed by `str.strip()`. -/
def clean_markdown (s : String) : String :=
  let t1 := subScan htmlTagM s.data
  let t2 := subScan linkM t1
  let t3 := subScan fenceM t2
  let t4 := subScan inlineCodeM t3
  let t5 := subScan headerMarkM t4
  let t6 := subScan boldM t5
  let t7 := subScan italicM t6
  let t8 := subScan blankLinesM t7
  String.mk (pyStrip t8)

/-- Backtracking tail of the header-delimiter matcher.  The source pattern is
`\n(#{1,3}\s+.+)\n`; after the hash run, the greedy `\s+` run of length
`wsMax` may have to give characters back so that `.+` (one or more non-newline
characters) and the final newline can match.  Python's engine tries the
whitespace lengths in decreasing order; `headerTryWs` does the same, where the
argument counts down from the maximal whitespace run.  `rest` is the input
right after the leading newline and `hlen` the length of the hash run. -/
def headerTryWs (rest : List Char) (hlen : Nat) (afterH : List Char) :
    Nat → Option (List Char × Nat)
  | 0 => none
  | w + 1 =>
    match afterH.drop (w + 1) with
    | [] => headerTryWs rest hlen afterH w
    | c :: cs =>
      if c == '\n' then headerTryWs rest hlen afterH w
      else
        let d := (c :: cs).takeWhile (fun ch => ch != '\n')
        match (c :: cs).drop d.length with
        | '\n' :: _ =>
          some (rest.take (hlen + (w + 1) + d.length),
            1 + hlen + (w + 1) + d.length + 1)
        | _ => headerTryWs rest hlen afterH w

/-- Anchored matcher for the section-delimiter pattern `\n(#{1,3}\s+.+)\n`
used by `chunk_by_headers`.  Returns the captured group (the header, without
the surrounding newlines) and the number of characters consumed. -/
def headerMatchAt : List Char → Option (List Char × Nat)
  | '\n' :: rest =>
    let hs := rest.takeWhile (fun c => c == '#')
    if hs.length = 0 || 3 < hs.length then none
    else
      let afterH := rest.drop hs.length
      let ws := afterH.takeWhile isPySpace
      headerTryWs rest hs.length afterH ws.length
  | _ => none

/-- Fuelled worker for `reSplitHeaders`: Python's `re.split` with one capture
group, scanning for leftmost non-overlapping matches; the accumulator holds
the current uncaptured segment in reverse. -/
def reSplitGoF : Nat → List Char → List Char → List (List Char)
  | 0, pending, rest => [pending.reverse ++ rest]
  | _, pending, [] => [pending.reverse]
  | f + 1, pending, c :: cs =>
    match headerMatchAt (c :: cs) with
    | some (g, n) =>
      pending.reverse :: g :: reSplitGoF f [] ((c :: cs).drop (max n 1))
    | none => reSplitGoF f (c :: pending) cs

/-- Python `re.split(r'\n(#{1,3}\s+.+)\n', content)`: the segments between matches
interleaved with each captured header line. -/
def reSplitHeaders (l : List Char) : List (List Char) :=
  reSplitGoF (l.length + 1) [] l

/-- The configuration fields of `backend/config.py` that the pipeline reads,
with their declared defaults. -/
structure Settings where
  chunk_size : Nat := 500
  chunk_overlap : Nat := 100
  top_k_results : Nat := 5
  max_history_messages : Nat := 10
deriving Repr, DecidableEq

/-- The default `settings` instance (no environment overrides). -/
def settings : Settings := {}

/-- Structure `DocumentChunk` from `backend/rag/models.py`.  The `metadata` dict always
has the single key `"section"` here, modelled by the field `section_label`. -/
structure DocumentChunk where
  id : String
  doc_path : String
  title : String
  text : String
  embedding : Option (List ℚ) := none
  section_label : String
deriving Repr, DecidableEq

/-- The digest key `f"{doc_path}:{n}"` fed to MD5 for a top-level chunk. -/
def mkKey (p : String) (n : Nat) : String :=
  p ++ ":" ++ toString n

/-- The digest key `f"{doc_path}:{n}:{j}"` for a sliding-window sub-chunk. -/
def mkKeySub (p : String) (n j : Nat) : String :=
  p ++ ":" ++ toString n ++ ":" ++ toString j

/-- Python `re.sub(r'^#+\s+', '', header)`: with an unanchored `re.sub` the `^` only
matches at position 0, so at most the leading hash-and-whitespace run is
removed. -/
def stripHeaderPrefix (h : String) : String :=
  match h.data with
  | '#' :: rest =>
    let hs := rest.takeWhile (fun c => c == '#')
    let ws := (rest.drop hs.length).takeWhile isPySpace
    if ws = [] then h else String.mk ((rest.drop hs.length).drop ws.length)
  | _ => h

/-- Fuelled worker for `chunk_by_size`: the `while start < len(words)` loop.
`start` advances by `size - overlap` per iteration; the fuel
`words.length + 1` is enough whenever `overlap < size`. -/
def chunkBySizeGo (words : List (List Char)) (size overlap : Nat) :
    Nat → Nat → List (List Char) → List (List Char)
  | 0, _, acc => acc.reverse
  | f + 1, start, acc =>
    if start < words.length then
      if words.length ≤ start + size then
        (joinSpace ((words.drop start).take size) :: acc).reverse
      else
        chunkBySizeGo words size overlap f (start + size - overlap)
          (joinSpace ((words.drop start).take size) :: acc)
    else acc.reverse

/-- Function `chunk_by_size` from `backend/rag/ingestion.py`: fixed-size sliding
window over the whitespace-split words of `text`. -/
def chunk_by_size (text : String) (size overlap : Nat) : List String :=
  let words := pyWords text.data
  (chunkBySizeGo words size overlap (words.length + 1) 0 []).map String.mk

/-- Lines 68–78 and 109–119 of `ingestion.py`: if the pending `current_text`
strips to something non-empty, clean it and append it as a chunk provided the
cleaned text is non-empty and longer than 50 characters.  The section label is
the document title inside the loop and `"Additional Content"` for the tail. -/
def addCurrentText (md5hex : String → String) (doc_path title label cur : String)
    (chunks : List DocumentChunk) : List DocumentChunk :=
  if String.mk (pyStrip cur.data) ≠ "" then
    if clean_markdown cur ≠ "" ∧ 50 < (clean_markdown cur).length then
      chunks ++ [{ id := md5hex (mkKey doc_path chunks.length),
                   doc_path := doc_path, title := title, text := clean_markdown cur,
                   section_label := label }]
    else chunks
  else chunks

/-- Lines 84–103 of `ingestion.py`: emit the chunks for one header section
whose cleaned text is `ct`.  When `len(chunk_text) > settings.chunk_size`
(a character count) the section is re-split by `chunk_by_size` and each
window becomes a chunk with a sub-indexed id; otherwise the whole section
becomes a single chunk provided it passes the 50-character minimum. -/
def sectionChunks (md5hex : String → String) (st : Settings)
    (doc_path title section_title ct : String)
    (chunks1 : List DocumentChunk) : List DocumentChunk :=
  if st.chunk_size < ct.length then
    let subs := chunk_by_size ct st.chunk_size st.chunk_overlap
    chunks1 ++ subs.enum.map (fun js =>
      { id := md5hex (mkKeySub doc_path (chunks1.length + js.1) js.1),
        doc_path := doc_path, title := title ++ " - " ++ section_title,
        text := js.2, section_label := section_title })
  else if ct ≠ "" ∧ 50 < ct.length then
    chunks1 ++ [{ id := md5hex (mkKey doc_path chunks1.length),
                  doc_path := doc_path,
                  title := title ++ " - " ++ section_title, text := ct,
                  section_label := section_title }]
  else chunks1

/-- The body of the `for i in range(1, len(sections), 2)` loop of
`chunk_by_headers`, consuming the sections after `sections[0]` two at a time
(header, following content).  Returns the accumulated chunks and the final
`current_text`. -/
def cbhLoop (md5hex : String → String) (st : Settings) (doc_path title : String) :
    List String → String → List DocumentChunk → List DocumentChunk × String
  | [], cur, chunks => (chunks, cur)
  | [x], cur, chunks => (chunks, cur ++ x)
  | header :: scontent :: rest, cur, chunks =>
    let chunks1 := addCurrentText md5hex doc_path title title cur chunks
    let section_title := stripHeaderPrefix (String.mk (pyStrip header.data))
    let chunks2 := sectionChunks md5hex st doc_path title section_title
      (clean_markdown (section_title ++ "\n\n" ++ scontent)) chunks1
    cbhLoop md5hex st doc_path title rest "" chunks2

/-- Function `chunk_by_headers` from `backend/rag/ingestion.py`, parametrised by the
digest function standing in for `hashlib.md5(...).hexdigest()` and by the
configuration.  The `len(sections) == 1` test is the singleton pattern; the
remaining branch is the header loop followed by the trailing-text append. -/
def chunk_by_headers (md5hex : String → String) (st : Settings)
    (content doc_path title : String) : List DocumentChunk :=
  match (reSplitHeaders content.data).map String.mk with
  | [_] =>
    if clean_markdown content ≠ "" then
      [{ id := md5hex (mkKey doc_path 0), doc_path := doc_path, title := title,
         text := clean_markdown content, section_label := title }]
    else []
  | [] => []
  | s0 :: restSec =>
    addCurrentText md5hex doc_path title "Additional Content"
      (cbhLoop md5hex st doc_path title restSec s0 []).2
      (cbhLoop md5hex st doc_path title restSec s0 []).1

/-- One markdown file on disk, as seen by `ingest_docs`: its basename, its
full path, and the outcome of `parse_markdown_file` on it (which may raise).
On success the parse yields `(doc_path, title, content)`. -/
structure MdFile where
  name : String
  path : String
  parse : Except String (String × String × String)

/-- Python substring containment, `"node_modules" in str(md_file)`. -/
def containsStr (hay needle : String) : Bool :=
  (firstIdx needle.data hay.data).isSome

/-- The `continue` filter at the top of the ingestion loop:
`md_file.name.startswith('.') or 'node_modules' in str(md_file)`. -/
def skipFile (f : MdFile) : Bool :=
  startsWithL ['.'] f.name.data || containsStr f.path "node_modules"

/-- The per-document loop of `ingest_docs`: parse each file, chunk it, and
extend `all_chunks`; a file whose parse raises is logged and skipped
(`continue`). -/
def collect_chunks (md5hex : String → String) (st : Settings) :
    List MdFile → List DocumentChunk
  | [] => []
  | f :: rest =>
    if skipFile f then collect_chunks md5hex st rest
    else
      match f.parse with
      | .ok (doc_path, title, content) =>
        chunk_by_headers md5hex st content doc_path title ++
          collect_chunks md5hex st rest
      | .error _ => collect_chunks md5hex st rest

/-- Function `embed_chunks` from `backend/rag/ingestion.py`, parametrised by the
embedding call `embed` (the `genai.embed_content` request, which may fail).
The source logs an embedding error and then re-raises it (`raise`), so the
first failure aborts the whole call. -/
def embed_chunks (embed : String → Except String (List ℚ)) :
    List DocumentChunk → Except String (List DocumentChunk)
  | [] => .ok []
  | c :: rest =>
    match embed c.text with
    | .ok v =>
      (embed_chunks embed rest).map (fun l => { c with embedding := some v } :: l)
    | .error e => .error e

/-- Function `ingest_docs` from `backend/rag/ingestion.py`.  The vector store is
modelled by its list of stored chunks, passed in and returned explicitly;
`pathExists` models `settings.docs_path_absolute.exists()` and `files` the
`rglob("*.md")` listing.  Returns the outcome (`raise` becomes `.error`)
together with the final store contents.  Note the order of effects in the
source: `vector_store.clear()` runs before the corpus path is checked. -/
def ingest_docs (md5hex : String → String) (st : Settings)
    (embed : String → Except String (List ℚ)) (pathExists : Bool)
    (files : List MdFile) (_store : List DocumentChunk) :
    Except String Nat × List DocumentChunk :=
  let store0 : List DocumentChunk := []
  if !pathExists then
    (.error "Documentation path does not exist", store0)
  else
    let all_chunks := collect_chunks md5hex st files
    if all_chunks = [] then (.ok 0, store0)
    else
      match embed_chunks embed all_chunks with
      | .error e => (.error e, store0)
      | .ok embedded => (.ok all_chunks.length, store0 ++ embedded)

/-- Structure `RetrievedChunk` from `backend/rag/models.py`. -/
structure RetrievedChunk where
  doc_path : String
  title : String
  text : String
  score : ℚ
  metadata : List (String × String) := []
deriving Repr, DecidableEq

/-- Structure `QueryResult` from `backend/rag/models.py`. -/
structure QueryResult where
  answer : String
  chunks : List RetrievedChunk
  query : String
deriving Repr, DecidableEq

/-- The per-query slice of the dict returned by `collection.query`: the
`[0]` entries of `ids`, `metadatas`, `documents` and `distances`.  A column
that is absent, `None`, or empty (all falsy in the guarding conditions) is
modelled as `none`. -/
structure ChromaQueryResult where
  ids : List String
  metadatas : Option (List (List (String × String))) := none
  documents : Option (List String) := none
  distances : Option (List ℚ) := none

/-- Python `metadata.get(key, default)`. -/
def metaGet (m : List (String × String)) (k dflt : String) : String :=
  match m.find? (fun p => p.1 == k) with
  | some p => p.2
  | none => dflt

/-- The conversion `score = max(0.0, 1.0 - distance)` from `VectorStore.search`. -/
def relevanceScore (d : ℚ) : ℚ :=
  max 0 (1 - d)

/-- The metadata fetch of the result loop:
`results["metadatas"][0][i] if results.get("metadatas") and results["metadatas"][0] else {}`.
A `none` result models an `IndexError` on a present-but-short column. -/
def fetchMeta (res : ChromaQueryResult) (i : Nat) : Option (List (String × String)) :=
  match res.metadatas with
  | some l => if l ≠ [] then l.get? i else some []
  | none => some []

/-- The document-text fetch of the result loop, defaulting to `""`. -/
def fetchDoc (res : ChromaQueryResult) (i : Nat) : Option String :=
  match res.documents with
  | some l => if l ≠ [] then l.get? i else some ""
  | none => some ""

/-- The distance fetch of the result loop, defaulting to `1.0`. -/
def fetchDist (res : ChromaQueryResult) (i : Nat) : Option ℚ :=
  match res.distances with
  | some l => if l ≠ [] then l.get? i else some 1
  | none => some 1

/-- One iteration of the result loop in `VectorStore.search`: fetch the
metadata, text and distance for index `i` (with the source's fallbacks for
missing columns) and build the `RetrievedChunk`.  `none` models an
`IndexError`, which the surrounding `try/except` turns into an empty result
list. -/
def searchRow (res : ChromaQueryResult) (i : Nat) : Option RetrievedChunk := do
  let metadata ← fetchMeta res i
  let text ← fetchDoc res i
  let distance ← fetchDist res i
  pure
    { doc_path := metaGet metadata "doc_path" ""
      title := metaGet metadata "title" ""
      text := text
      score := relevanceScore distance
      metadata := metadata }

/-- Method `VectorStore.search` from `backend/rag/vector_store.py`.  `count` is
`collection.count()`; `outcome` is the result of the `collection.query` call
(`.error` when the store raised).  An empty store, a failed query, an empty
id list, and an exception while assembling rows all yield `[]`. -/
def VectorStore.search (count : Nat) (outcome : Except Unit ChromaQueryResult)
    (_top_k : Nat) : List RetrievedChunk :=
  if count = 0 then []
  else
    match outcome with
    | .error _ => []
    | .ok res =>
      if res.ids = [] then []
      else
        match (List.range res.ids.length).mapM (searchRow res) with
        | some chunks => chunks
        | none => []

/-- Structure `ChatMessage` (role and content) as consumed by `_build_prompt`. -/
structure ChatMessage where
  role : String
  content : String
deriving Repr, DecidableEq

/-- Python `msg.content[:500] if len(msg.content) > 500 else msg.content`. -/
def truncContent (c : String) : String :=
  if 500 < c.length then String.mk (c.data.take 500) else c

/-- The history loop of `Retriever._build_prompt`: a `user` message becomes
`Q: <content>`, an `assistant` message becomes `A: <content>` (each truncated
to 500 characters), any other role is skipped. -/
def buildHistoryParts : List ChatMessage → List String
  | [] => []
  | m :: rest =>
    if m.role == "user" then
      ("Q: " ++ truncContent m.content) :: buildHistoryParts rest
    else if m.role == "assistant" then
      ("A: " ++ truncContent m.content) :: buildHistoryParts rest
    else buildHistoryParts rest

/-- The `history_text` computed by `Retriever._build_prompt`:
empty unless a non-empty history produced at least one rendered part. -/
def history_text (h : Option (List ChatMessage)) : String :=
  match h with
  | none => ""
  | some msgs =>
    if 0 < msgs.length then
      let parts := buildHistoryParts msgs
      if parts ≠ [] then
        "\n\nPREVIOUS CONVERSATION:\n" ++ String.intercalate "\n" parts ++ "\n"
      else ""
    else ""

/-- The fixed instruction preamble of the prompt template in
`Retriever._build_prompt` (everything before the history block). -/
def promptPreamble : String :=
  "You are a helpful documentation assistant. Your job is to answer questions based on the provided documentation context.\n\nIMPORTANT INSTRUCTIONS:\n1. Use the previous conversation to understand context and what the user is referring to\n2. When the user asks about previous messages (e.g., \"What did I say?\"), you CAN refer to the conversation history\n3. For questions about the documentation content, answer using information from the provided documentation context\n4. You MUST cite which documentation sources you used in your answer (reference by document title)\n5. If the documentation doesn\x27t contain enough information to answer a question about documentation, say so clearly\n6. Be concise but thorough\n7. Use a professional and helpful tone\n8. Format your answer clearly with bullet points or paragraphs as appropriate\n"

/-- Method `Retriever._build_context`: each chunk rendered as a labelled source
block followed by its text and a blank separator line, joined by newlines. -/
def build_context (chunks : List RetrievedChunk) : String :=
  String.intercalate "\n"
    ((chunks.enum.map (fun ic =>
      ["[Source " ++ toString (ic.1 + 1) ++ ": " ++ ic.2.title ++ "]",
        ic.2.text, ""])).flatten)

/-- Method `Retriever._build_prompt`: the f-string template combining the preamble,
the history block, the context block, the source list and the question. -/
def build_prompt (question context : String) (chunks : List RetrievedChunk)
    (hist : Option (List ChatMessage)) : String :=
  let source_list := String.intercalate "\n"
    (chunks.map (fun c => "- " ++ c.title ++ " (from " ++ c.doc_path ++ ")"))
  promptPreamble ++ history_text hist ++
    "\nCONTEXT FROM DOCUMENTATION:\n" ++ context ++
    "\n\nAVAILABLE SOURCES:\n" ++ source_list ++
    "\n\nCURRENT QUESTION: " ++ question ++
    "\n\nANSWER (cite documentation sources when using them):"

/-- The canned insufficient-information answer of `Retriever.query`. -/
def canned_answer : String :=
  "I couldn\x27t find any relevant information in the documentation to answer your question."

/-- Method `Retriever.query` from `backend/rag/retriever.py`: search the store, and
when nothing was retrieved return the canned answer with no citations without
calling the generator; otherwise generate an answer grounded in the built
prompt.  `gen` stands for the selected provider's `generate` (together with
`LLMFactory.create_provider`); `count`/`outcome` are the store inputs of
`VectorStore.search`. -/
def Retriever.query (gen : String → String) (count : Nat)
    (outcome : Except Unit ChromaQueryResult) (st : Settings)
    (question : String) (hist : Option (List ChatMessage)) : QueryResult :=
  let retrieved := VectorStore.search count outcome st.top_k_results
  if retrieved = [] then
    { answer := canned_answer, chunks := [], query := question }
  else
    { answer := gen (build_prompt question (build_context retrieved) retrieved hist)
      chunks := retrieved
      query := question }

/-- The history-message rendering exactly as the spec words it: a `user`
message becomes `Q:` followed by the first 500 characters of its content, an
`assistant` message becomes `A:` likewise, and a message with any other role
is skipped.  Used to compare the source's loop against the spec sentence. -/
def renderHistoryMsgSpec (m : ChatMessage) : Option String :=
  if m.role = "user" then some ("Q: " ++ String.mk (m.content.data.take 500))
  else if m.role = "assistant" then some ("A: " ++ String.mk (m.content.data.take 500))
  else none

/-- The header-line criterion exactly as the spec words it: a line (no
newline inside) entirely composed of one to three hash characters, followed
by whitespace, followed by text. -/
def isSpecHeaderLine (l : List Char) : Bool :=
  let hs := l.takeWhile (fun c => c == '#')
  let ws := (l.drop hs.length).takeWhile isPySpace
  decide (0 < hs.length) && decide (hs.length ≤ 3) && !ws.isEmpty &&
    !((l.drop hs.length).drop ws.length).isEmpty && l.all (fun c => c != '\n')

/-- A document whose sections all clear the 50-character minimum: the header
preservation example of the spec with non-trivial bodies. -/
def longDoc : String :=
  "# Main Title\n\nThis is a long intro paragraph with plenty of characters to pass the filter easily.\n\n## Section 1\n\nSection one body text that is definitely long enough to pass the fifty character filter.\n\n## Section 2\n\nSection two body text that is also long enough to pass the fifty character filter here.\n"

/-- A document whose only header sits on its very first line. -/
def firstLineDoc : String :=
  "# Main Title\nThis body follows a first-line header and is certainly longer than fifty characters.\n"

/-- The id-structure invariant of C6: every chunk at position `k` of `l`
carries the digest of the key `"{doc_path}:{k}"` or `"{doc_path}:{k}:{j}"`
for some window index `j`. -/
def idsOk (md5hex : String → String) (p : String) (l : List DocumentChunk) : Prop :=
  ∀ k c, l.get? k = some c →
    c.id = md5hex (mkKey p k) ∨ ∃ j, c.id = md5hex (mkKeySub p k j)

/-! ## Theorems -/

set_option maxRecDepth 100000

/-- Python's `[:500]` slice always equals taking the first 500 characters. -/
lemma truncContent_eq (c : String) : truncContent c = String.mk (c.data.take 500) := by
  unfold truncContent
  split
  · rfl
  · next h => rw [List.take_of_length_le (Nat.le_of_not_lt h)]

/-- C1: the claim says every input whose normalized text is shorter than the
50-character minimum (such as the 5-character `"Short"`) yields an empty chunk
sequence.  The repository's own test `test_chunk_minimum_length` asserts
exactly this, but the code takes the headerless fallback path, which only
checks non-emptiness and never applies the 50-character minimum: `"Short"`
is emitted as a chunk.  This theorem evaluates the code at the failing
input. -/
theorem C1_minimum_length_filter_bypassed_for_headerless_input :
    chunk_by_headers id settings "Short" "test.md" "Test" =
      [{ id := "test.md:0", doc_path := "test.md", title := "Test",
         text := "Short", embedding := none, section_label := "Test" }] ∧
    (clean_markdown "Short").length = 5 ∧
    ¬ (50 < (clean_markdown "Short").length) := by
  refine ⟨by decide, by decide, by decide⟩

/-- C4 (counterexample): the claim asserts the derived relevance score lies in
`[0, 1]` for every distance value returned by the store; at distance `-1` the
score computed by `VectorStore.search` is `2`. -/
theorem C4_negative_distance_score_exceeds_one :
    (VectorStore.search 1 (Except.ok { ids := ["x"], distances := some [-1] }) 5).map
      (fun c => c.score) = [2] ∧ ¬ ((2 : ℚ) ≤ 1) := by
  constructor
  · have h1 : relevanceScore (-1) = 2 := by
      unfold relevanceScore; rw [max_eq_right] <;> norm_num
    simp [VectorStore.search, List.range_succ, List.mapM.loop, searchRow, fetchMeta,
      fetchDoc, fetchDist, metaGet, h1]
  · norm_num

/-- C4 (amended): every score derived by the search loop equals
`max(0, 1 - d)` for the row's distance `d`; the score is never negative and is
monotonically non-increasing in the distance; it lies in `[0, 1]` provided the
distance is non-negative (a negative distance pushes it above 1). -/
theorem C4_score_clamp_bounds :
    (∀ d : ℚ, relevanceScore d = max 0 (1 - d)) ∧
    (∀ d : ℚ, 0 ≤ relevanceScore d) ∧
    (∀ d : ℚ, 0 ≤ d → relevanceScore d ≤ 1) ∧
    (∀ d₁ d₂ : ℚ, d₁ ≤ d₂ → relevanceScore d₂ ≤ relevanceScore d₁) ∧
    (∀ res i c, searchRow res i = some c → ∃ d : ℚ, c.score = relevanceScore d) := by
  refine ⟨fun d => rfl, fun d => le_max_left 0 _, fun d hd => ?_, fun d₁ d₂ h => ?_, ?_⟩
  · exact max_le (by norm_num) (by linarith)
  · exact max_le_max (le_refl 0) (by linarith)
  · intro res i c h
    simp only [searchRow, Option.bind_eq_bind, Option.bind_eq_some, Option.pure_def,
      Option.some.injEq] at h
    obtain ⟨metadata, hm, text, ht, distance, hd, hc⟩ := h
    exact ⟨distance, by rw [← hc]⟩

/-- Witness for C4: the bounds at concrete distances, and a concrete search
row whose score is a clamped distance. -/
theorem C4_score_clamp_bounds_witness :
    relevanceScore 1 ≤ 1 ∧ relevanceScore 2 ≤ relevanceScore 1 ∧
    (∃ d : ℚ,
      ({ doc_path := "", title := "", text := "", score := relevanceScore 1,
         metadata := [] } : RetrievedChunk).score = relevanceScore d) :=
  ⟨C4_score_clamp_bounds.2.2.1 1 zero_le_one,
   C4_score_clamp_bounds.2.2.2.1 1 2 one_le_two,
   C4_score_clamp_bounds.2.2.2.2 { ids := ["x"] } 0 _ rfl⟩

/-- C5: querying an empty store, a store query that raises, and a query whose
result has an empty id list all yield `[]` rather than an error; and whenever
retrieval yields zero chunks, `Retriever.query` returns the fixed
insufficient-information answer with an empty citation list and its result
does not depend on the answer generator (the generator is never invoked). -/
theorem C5_empty_retrieval_yields_canned_answer :
    (∀ (out : Except Unit ChromaQueryResult) (k : Nat), VectorStore.search 0 out k = []) ∧
    (∀ (n k : Nat), VectorStore.search n (Except.error ()) k = []) ∧
    (∀ (n k : Nat) (res : ChromaQueryResult),
      VectorStore.search n (Except.ok { res with ids := [] }) k = []) ∧
    (∀ gen (n : Nat) out st q h, VectorStore.search n out st.top_k_results = [] →
      Retriever.query gen n out st q h =
        { answer := canned_answer, chunks := [], query := q }) ∧
    (∀ gen gen' (n : Nat) out st q h, VectorStore.search n out st.top_k_results = [] →
      Retriever.query gen n out st q h = Retriever.query gen' n out st q h) := by
  refine ⟨?_, ?_, ?_, ?_, ?_⟩
  · intro out k; simp [VectorStore.search]
  · intro n k; by_cases hn : n = 0 <;> simp [VectorStore.search, hn]
  · intro n k res; by_cases hn : n = 0 <;> simp [VectorStore.search, hn]
  · intro gen n out st q h hs; simp [Retriever.query, hs]
  · intro gen gen' n out st q h hs; simp [Retriever.query, hs]

/-- Witness for C5: a failing store query at a non-empty store yields the
canned answer, independently of the generator. -/
theorem C5_empty_retrieval_yields_canned_answer_witness :
    Retriever.query (fun _ => "generated A") 3 (Except.error ()) settings "q" none =
      { answer := canned_answer, chunks := [], query := "q" } ∧
    Retriever.query (fun _ => "generated A") 3 (Except.error ()) settings "q" none =
      Retriever.query (fun _ => "generated B") 3 (Except.error ()) settings "q" none :=
  ⟨C5_empty_retrieval_yields_canned_answer.2.2.2.1 (fun _ => "generated A") 3
      (Except.error ()) settings "q" none rfl,
   C5_empty_retrieval_yields_canned_answer.2.2.2.2 (fun _ => "generated A")
      (fun _ => "generated B") 3 (Except.error ()) settings "q" none rfl⟩

/-- C8: every history message with role `user` or `assistant` is rendered as
`Q: <content>` or `A: <content>` with the content truncated to its first 500
characters, messages with any other role are silently skipped, and with no
supplied history the history block is omitted entirely (the prompt is the one
with an empty history block, and the block itself is the empty string). -/
theorem C8_history_rendering :
    (∀ msgs, buildHistoryParts msgs = msgs.filterMap renderHistoryMsgSpec) ∧
    history_text none = "" ∧
    (∀ q ctx ch, build_prompt q ctx ch none = build_prompt q ctx ch (some [])) := by
  refine ⟨?_, rfl, ?_⟩
  · intro msgs
    induction msgs with
    | nil => rfl
    | cons m rest ih =>
      simp only [buildHistoryParts, List.filterMap_cons, renderHistoryMsgSpec]
      by_cases h1 : m.role = "user"
      · simp [h1, ih, truncContent_eq]
      · by_cases h2 : m.role = "assistant"
        · simp [h1, h2, ih, truncContent_eq]
        · simp [h1, h2, ih]
  · intro q ctx ch; rfl

/-- Accumulator lemma for the `chunk_by_size` loop. -/
lemma chunkBySizeGo_acc (words : List (List Char)) (size overlap : Nat) :
    ∀ fuel start acc, chunkBySizeGo words size overlap fuel start acc =
      acc.reverse ++ chunkBySizeGo words size overlap fuel start [] := by
  intro fuel
  induction fuel with
  | zero => intro start acc; simp [chunkBySizeGo]
  | succ f ih =>
    intro start acc
    simp only [chunkBySizeGo]
    by_cases h1 : start < words.length
    · by_cases h2 : words.length ≤ start + size
      · simp [h1, h2]
      · simp only [h1, if_true, h2, if_false]
        rw [ih _ (_ :: acc), ih _ [_]]
        simp
    · simp [h1]

/-- With `overlap < size` the loop's result does not depend on the fuel once
the fuel exceeds the remaining word count: the `while` loop terminates. -/
lemma chunkBySizeGo_fuel (words : List (List Char)) (size overlap : Nat)
    (hov : overlap < size) :
    ∀ f₁ f₂ start acc, words.length - start < f₁ → words.length - start < f₂ →
      chunkBySizeGo words size overlap f₁ start acc =
      chunkBySizeGo words size overlap f₂ start acc := by
  intro f₁
  induction f₁ with
  | zero => intro f₂ start acc h1 h2; omega
  | succ f ih =>
    intro f₂ start acc h1 h2
    cases f₂ with
    | zero => omega
    | succ g =>
      simp only [chunkBySizeGo]
      by_cases hs : start < words.length
      · by_cases he : words.length ≤ start + size
        · simp [hs, he]
        · simp only [hs, if_true, he, if_false]
          exact ih g _ _ (by omega) (by omega)
      · simp [hs]

/-- The window characterisation of the `chunk_by_size` loop: the `k`-th
emitted piece is the space-join of the `size`-word window starting at word
`start + k * (size - overlap)`. -/
lemma chunkBySizeGo_windows (words : List (List Char)) (size overlap : Nat)
    (hov : overlap < size) :
    ∀ fuel start, words.length - start < fuel →
      ∀ k, k < (chunkBySizeGo words size overlap fuel start []).length →
        (chunkBySizeGo words size overlap fuel start []).get? k =
          some (joinSpace ((words.drop (start + k * (size - overlap))).take size)) := by
  intro fuel
  induction fuel with
  | zero => intro start hf k hk; omega
  | succ f ih =>
    intro start hf k hk
    by_cases h1 : start < words.length
    · by_cases h2 : words.length ≤ start + size
      · simp only [chunkBySizeGo, h1, if_true, h2, List.reverse_cons, List.reverse_nil,
          List.nil_append] at hk ⊢
        have hk0 : k = 0 := by simpa using Nat.lt_one_iff.mp (by simpa using hk)
        subst hk0
        simp
      · simp only [chunkBySizeGo, h1, if_true, h2, if_false] at hk ⊢
        rw [chunkBySizeGo_acc] at hk ⊢
        simp only [List.reverse_cons, List.reverse_nil, List.nil_append,
          List.singleton_append] at hk ⊢
        cases k with
        | zero => simp
        | succ k' =>
          have hklt : k' <
              (chunkBySizeGo words size overlap f (start + size - overlap) []).length := by
            simpa using Nat.lt_of_succ_lt_succ hk
          rw [List.get?_cons_succ, ih (start + size - overlap) (by omega) k' hklt]
          have hst : start + size - overlap = start + (size - overlap) := by omega
          rw [hst]
          have harg : start + (size - overlap) + k' * (size - overlap) =
              start + (k' + 1) * (size - overlap) := by ring
          rw [harg]
    · simp only [chunkBySizeGo, h1, if_false, List.reverse_nil] at hk
      simp at hk

/-- The empty chunk list satisfies the id-structure invariant. -/
lemma idsOk_nil (md5hex : String → String) (p : String) : idsOk md5hex p [] := by
  intro k c h
  simp at h

/-- Appending one chunk keyed by the current running count preserves the
id-structure invariant. -/
lemma idsOk_append_key {md5hex : String → String} {p : String}
    {l : List DocumentChunk} (h : idsOk md5hex p l) (c : DocumentChunk)
    (hc : c.id = md5hex (mkKey p l.length)) : idsOk md5hex p (l ++ [c]) := by
  intro k d hd
  rcases Nat.lt_or_ge k l.length with hk | hk
  · rw [List.get?_append hk] at hd
    exact h k d hd
  · rw [List.get?_append_right hk] at hd
    cases hq : k - l.length with
    | zero =>
      rw [hq] at hd
      simp at hd
      left
      have hkl : k = l.length := by omega
      rw [hkl, ← hd]
      exact hc
    | succ n =>
      rw [hq] at hd
      simp at hd

/-- The section-processing step preserves the id-structure invariant: the
whole-section chunk is keyed by the running count, and the `j`-th window
chunk is keyed by the running count at its own append time plus `:{j}`. -/
lemma sectionChunks_idsOk {md5hex : String → String} {st : Settings}
    {p t stitle ct : String} {chunks1 : List DocumentChunk}
    (h : idsOk md5hex p chunks1) :
    idsOk md5hex p (sectionChunks md5hex st p t stitle ct chunks1) := by
  unfold sectionChunks
  split
  · intro k d hd
    rcases Nat.lt_or_ge k chunks1.length with hk | hk
    · rw [List.get?_append hk] at hd
      exact h k d hd
    · rw [List.get?_append_right hk] at hd
      rw [List.get?_map, List.get?_enum] at hd
      cases hs : (chunk_by_size ct st.chunk_size st.chunk_overlap).get?
          (k - chunks1.length) with
      | none => rw [hs] at hd; simp at hd
      | some s =>
        rw [hs] at hd
        right
        refine ⟨k - chunks1.length, ?_⟩
        have hd2 : some (DocumentChunk.mk
            (md5hex (mkKeySub p (chunks1.length + (k - chunks1.length))
              (k - chunks1.length)))
            p (t ++ " - " ++ stitle) s none stitle) = some d := hd
        have hd3 := Option.some.inj hd2
        rw [← hd3]
        have hadd : chunks1.length + (k - chunks1.length) = k := by omega
        rw [hadd]
  · split
    · exact idsOk_append_key h _ rfl
    · exact h

/-- Appending the pending `current_text` chunk preserves the id-structure
invariant. -/
lemma addCurrentText_idsOk {md5hex : String → String} {p t label cur : String}
    {chunks : List DocumentChunk} (h : idsOk md5hex p chunks) :
    idsOk md5hex p (addCurrentText md5hex p t label cur chunks) := by
  unfold addCurrentText
  split
  · split
    · exact idsOk_append_key h _ rfl
    · exact h
  · exact h

/-- The chunking loop preserves the id-structure invariant. -/
lemma cbhLoop_idsOk (md5hex : String → String) (st : Settings) (p t : String) :
    ∀ (secs : List String) (cur : String) (chunks : List DocumentChunk),
      idsOk md5hex p chunks → idsOk md5hex p (cbhLoop md5hex st p t secs cur chunks).1
  | [], cur, chunks, h => by simpa [cbhLoop] using h
  | [x], cur, chunks, h => by simpa [cbhLoop] using h
  | a :: b :: rest, cur, chunks, h => by
    simp only [cbhLoop]
    exact cbhLoop_idsOk md5hex st p t rest "" _
      (sectionChunks_idsOk (addCurrentText_idsOk h))

/-- A file whose parse raises contributes nothing to the collected chunks:
the ingestion loop logs it and continues. -/
lemma collect_chunks_skip_error (md5hex : String → String) (st : Settings)
    (f : MdFile) (e : String) (hf : f.parse = Except.error e) :
    ∀ files₁ files₂ : List MdFile,
      collect_chunks md5hex st (files₁ ++ f :: files₂) =
        collect_chunks md5hex st (files₁ ++ files₂) := by
  intro files₁
  induction files₁ with
  | nil =>
    intro files₂
    by_cases h : skipFile f <;> simp [collect_chunks, h, hf]
  | cons g gs ih =>
    intro files₂
    by_cases h : skipFile g
    · simp [collect_chunks, h, ih]
    · cases hg : g.parse <;> simp [collect_chunks, h, hg, ih]

/-- C2 (counterexample): the claim says a section is re-split only when its
normalized length exceeds the maximum chunk size measured in words.  With a
configured maximum of 10 the section `"S\n\nabc defg hij"` has 4 words but 15
characters; the code re-splits it (the emitted chunk has a window-indexed id
and whitespace-normalised text differing from the normalized section text),
so the trigger is the character count, not the word count. -/
theorem C2_char_count_triggers_resplit_cex :
    (pyWords (clean_markdown "S\n\nabc defg hij\n").data).length ≤ 10 ∧
    (chunk_by_headers id { chunk_size := 10, chunk_overlap := 3 }
        "x\n## S\nabc defg hij\n" "d.md" "Doc").map (fun c => (c.id, c.text)) =
      [("d.md:0:0", "S abc defg hij")] ∧
    clean_markdown "S\n\nabc defg hij\n" = "S\n\nabc defg hij" ∧
    ("S abc defg hij" : String) ≠ "S\n\nabc defg hij" := by
  refine ⟨by decide, by decide, by decide, by decide⟩

/-- C2 (amended): a header section is re-split exactly when its normalized
text exceeds the configured maximum in characters; the re-split itself is
word-based, emitting one chunk per window, where the `k`-th window is the
space-join of the `size`-word slice starting at word `k * (size - overlap)`;
a section at or below the maximum in characters (and over the 50-character
minimum) is emitted whole as one chunk. -/
theorem C2_resplit_trigger_and_window_semantics
    (md5hex : String → String) (st : Settings) (p t stitle ct : String)
    (chunks1 : List DocumentChunk) (hov : st.chunk_overlap < st.chunk_size) :
    (st.chunk_size < ct.length →
      (sectionChunks md5hex st p t stitle ct chunks1).map (fun c => c.text) =
        chunks1.map (fun c => c.text) ++
          chunk_by_size ct st.chunk_size st.chunk_overlap ∧
      ∀ k, k < (chunk_by_size ct st.chunk_size st.chunk_overlap).length →
        (chunk_by_size ct st.chunk_size st.chunk_overlap).get? k =
          some (String.mk (joinSpace (((pyWords ct.data).drop
            (k * (st.chunk_size - st.chunk_overlap))).take st.chunk_size)))) ∧
    (¬ st.chunk_size < ct.length → ct ≠ "" → 50 < ct.length →
      sectionChunks md5hex st p t stitle ct chunks1 =
        chunks1 ++ [{ id := md5hex (mkKey p chunks1.length), doc_path := p,
                      title := t ++ " - " ++ stitle, text := ct,
                      section_label := stitle }]) := by
  constructor
  · intro hgt
    constructor
    · unfold sectionChunks
      rw [if_pos hgt, List.map_append]
      congr 1
      rw [List.map_map]
      exact List.enum_map_snd _
    · intro k hk
      rw [show chunk_by_size ct st.chunk_size st.chunk_overlap =
        (chunkBySizeGo (pyWords ct.data) st.chunk_size st.chunk_overlap
          ((pyWords ct.data).length + 1) 0 []).map String.mk from rfl] at hk ⊢
      rw [List.get?_map,
        chunkBySizeGo_windows _ _ _ hov _ 0 (by omega) k (by simpa using hk)]
      simp
  · intro hle hne h50
    unfold sectionChunks
    rw [if_neg hle, if_pos ⟨hne, h50⟩]

/-- Witness for C2: an oversized section (in characters) turns into exactly
its word windows, and a short-enough section is emitted whole. -/
theorem C2_resplit_trigger_and_window_semantics_witness :
    (sectionChunks id { chunk_size := 3, chunk_overlap := 1 } "d.md" "Doc" "S"
        "aa bb cc dd" []).map (fun c => c.text) =
      ([] : List DocumentChunk).map (fun c => c.text) ++
        chunk_by_size "aa bb cc dd" 3 1 ∧
    sectionChunks id settings "d.md" "Doc" "S"
        "This section text is exactly long enough to pass fifty." [] =
      [] ++ [{ id := id (mkKey "d.md" 0), doc_path := "d.md", title := "Doc - S",
               text := "This section text is exactly long enough to pass fifty.",
               embedding := none, section_label := "S" }] :=
  ⟨((C2_resplit_trigger_and_window_semantics id
      { chunk_size := 3, chunk_overlap := 1 } "d.md" "Doc" "S" "aa bb cc dd" []
      (by decide)).1 (by decide)).1,
   (C2_resplit_trigger_and_window_semantics id settings "d.md" "Doc" "S"
      "This section text is exactly long enough to pass fifty." []
      (by decide)).2 (by decide) (by decide) (by decide)⟩

/-- C3 (counterexample): the claim says a chunk that fails to embed is logged
and skipped while ingestion continues with the rest, reporting partial success
via the final count.  With a document yielding three chunks and an embedding
call that fails on the third chunk's text, `ingest_docs` aborts with the
error and indexes nothing, instead of returning a partial count. -/
theorem C3_embed_failure_aborts_ingestion_cex :
    ingest_docs id settings
      (fun s => if s = "Section 2\n\nSection two body text that is also long enough to pass the fifty character filter here."
        then Except.error "embed failed" else Except.ok [1])
      true [{ name := "doc.md", path := "doc.md",
              parse := Except.ok ("doc.md", "Doc", longDoc) }] [] =
      (Except.error "embed failed", []) ∧
    (collect_chunks id settings
      [{ name := "doc.md", path := "doc.md",
         parse := Except.ok ("doc.md", "Doc", longDoc) }]).length = 3 := by
  refine ⟨by rfl, by rfl⟩

/-- C3 (amended): a document whose parse raises is logged and skipped and
ingestion continues with the remaining files; but a failure while embedding a
chunk propagates (`embed_chunks` re-raises), aborting the entire ingestion
with the cleared store — there is no partial success across embedding
failures. -/
theorem C3_parse_skipped_but_embed_failure_aborts :
    (∀ (md5hex : String → String) (st : Settings) embed (f : MdFile)
        (files₁ files₂ : List MdFile) (store : List DocumentChunk) (e : String),
      f.parse = Except.error e →
      ingest_docs md5hex st embed true (files₁ ++ f :: files₂) store =
        ingest_docs md5hex st embed true (files₁ ++ files₂) store) ∧
    (∀ (md5hex : String → String) (st : Settings) embed (files : List MdFile)
        (store : List DocumentChunk) (e : String),
      embed_chunks embed (collect_chunks md5hex st files) = Except.error e →
      ingest_docs md5hex st embed true files store = (Except.error e, [])) := by
  constructor
  · intro md5hex st embed f files₁ files₂ store e hf
    unfold ingest_docs
    rw [collect_chunks_skip_error md5hex st f e hf files₁ files₂]
  · intro md5hex st embed files store e h
    by_cases hc : collect_chunks md5hex st files = []
    · rw [hc] at h
      simp [embed_chunks] at h
    · simp [ingest_docs, hc, h]

/-- Witness for C3: a concrete parse failure is skipped, and a concrete
embedding failure aborts the run. -/
theorem C3_parse_skipped_but_embed_failure_aborts_witness :
    ingest_docs id settings (fun _ => Except.ok []) true
      [{ name := "bad.md", path := "bad.md", parse := Except.error "parse error" }] [] =
      ingest_docs id settings (fun _ => Except.ok []) true [] [] ∧
    ingest_docs id settings (fun _ => Except.error "api down") true
      [{ name := "doc.md", path := "doc.md",
         parse := Except.ok ("doc.md", "Doc", longDoc) }] [] =
      (Except.error "api down", []) :=
  ⟨C3_parse_skipped_but_embed_failure_aborts.1 id settings (fun _ => Except.ok [])
      _ [] [] [] "parse error" rfl,
   C3_parse_skipped_but_embed_failure_aborts.2 id settings
      (fun _ => Except.error "api down") _ [] "api down" (by rfl)⟩

/-- C6: every chunk id minted by the chunker is the content-independent
digest of `"{doc_path}:{ordinal}"` where the ordinal is the chunk's own
position (the running count of chunks already emitted), with sliding-window
sub-chunks keyed `"{doc_path}:{ordinal}:{window_index}"`; and the chunker is
a pure function, so running it twice on the same input yields the identical
ordered id sequence. -/
theorem C6_chunk_ids_deterministic_key_structure
    (md5hex : String → String) (st : Settings) (content p t : String) :
    (∀ k c, (chunk_by_headers md5hex st content p t).get? k = some c →
      c.id = md5hex (mkKey p k) ∨ ∃ j, c.id = md5hex (mkKeySub p k j)) ∧
    (chunk_by_headers md5hex st content p t).map (fun c => c.id) =
      (chunk_by_headers md5hex st content p t).map (fun c => c.id) := by
  refine ⟨?_, rfl⟩
  show idsOk md5hex p (chunk_by_headers md5hex st content p t)
  unfold chunk_by_headers
  split
  · split
    · intro k c h
      cases k with
      | zero =>
        simp at h
        left
        rw [← h]
      | succ n => simp at h
    · exact idsOk_nil md5hex p
  · exact idsOk_nil md5hex p
  · exact addCurrentText_idsOk (cbhLoop_idsOk md5hex st p t _ _ [] (idsOk_nil md5hex p))

/-- Witness for C6: the single chunk of the `"Short"` document carries the
digest of the key `test.md:0`. -/
theorem C6_chunk_ids_deterministic_key_structure_witness :
    ({ id := "test.md:0", doc_path := "test.md", title := "Test", text := "Short",
       embedding := none, section_label := "Test" } : DocumentChunk).id =
       (fun s => s) (mkKey "test.md" 0) ∨
    ∃ j,
      ({ id := "test.md:0", doc_path := "test.md", title := "Test", text := "Short",
         embedding := none, section_label := "Test" } : DocumentChunk).id =
         (fun s => s) (mkKeySub "test.md" 0 j) :=
  (C6_chunk_ids_deterministic_key_structure (fun s => s) settings "Short"
    "test.md" "Test").1 0 _ (by decide)

/-- C7 (counterexample): the claim says a line of 1–3 hashes, whitespace and
text is a delimiter wherever it occurs, including the document's first line.
The split pattern requires a newline before the header, so a conforming
header on the first line is not recognised: the split finds no delimiter and
the document falls through to the headerless single-chunk path whose title
carries no section suffix. -/
theorem C7_first_line_header_not_recognized_cex :
    isSpecHeaderLine (firstLineDoc.data.takeWhile (fun c => c != '\n')) = true ∧
    (reSplitHeaders firstLineDoc.data).length = 1 ∧
    (chunk_by_headers id settings firstLineDoc "d.md" "Doc").map (fun c => c.title) =
      ["Doc"] := by
  refine ⟨by decide, by decide, by decide⟩

/-- C7 (amended): header lines are recognised when immediately preceded and
followed by newlines (a first-line header is not a delimiter); the split
keeps each captured header next to its following body segment, and on the
spec's example document (bodies over the 50-character minimum) the output
contains a chunk whose title contains "Section 1" and one whose title
contains "Section 2". -/
theorem C7_interior_headers_recognized :
    (reSplitHeaders longDoc.data).map String.mk =
      ["# Main Title\n\nThis is a long intro paragraph with plenty of characters to pass the filter easily.\n",
       "## Section 1",
       "\nSection one body text that is definitely long enough to pass the fifty character filter.\n",
       "## Section 2",
       "\nSection two body text that is also long enough to pass the fifty character filter here.\n"] ∧
    (chunk_by_headers id settings longDoc "doc.md" "Doc").map (fun c => c.title) =
      ["Doc", "Doc - Section 1", "Doc - Section 2"] ∧
    containsStr "Doc - Section 1" "Section 1" = true ∧
    containsStr "Doc - Section 2" "Section 2" = true := by
  refine ⟨by decide, by decide, by decide, by decide⟩

/-- C10: with `0 ≤ overlap < size` the sliding-window loop terminates (its
result is independent of any extra fuel), and the `k`-th returned window is
the space-join of the `size`-word slice beginning at word
`k * (size - overlap)` — so every window holds at most `size` words and the
start index advances by exactly `size - overlap` per iteration. -/
theorem C10_chunk_by_size_terminates_windows_bounded
    (text : String) (size overlap : Nat) (hov : overlap < size) :
    (∀ extra, (chunkBySizeGo (pyWords text.data) size overlap
        ((pyWords text.data).length + 1 + extra) 0 []).map String.mk =
      chunk_by_size text size overlap) ∧
    (∀ k, k < (chunk_by_size text size overlap).length →
      (chunk_by_size text size overlap).get? k =
        some (String.mk (joinSpace (((pyWords text.data).drop
          (k * (size - overlap))).take size))) ∧
      (((pyWords text.data).drop (k * (size - overlap))).take size).length ≤ size) := by
  constructor
  · intro extra
    show _ = (chunkBySizeGo (pyWords text.data) size overlap
      ((pyWords text.data).length + 1) 0 []).map String.mk
    congr 1
    exact chunkBySizeGo_fuel _ _ _ hov _ _ 0 [] (by omega) (by omega)
  · intro k hk
    rw [show chunk_by_size text size overlap = (chunkBySizeGo (pyWords text.data)
      size overlap ((pyWords text.data).length + 1) 0 []).map String.mk from rfl]
      at hk ⊢
    refine ⟨?_, List.length_take_le _ _⟩
    rw [List.get?_map,
      chunkBySizeGo_windows _ _ _ hov _ 0 (by omega) k (by simpa using hk)]
    simp

/-- Witness for C10: on a five-word text with window 2 and overlap 1 the
result is fuel-independent and the second window starts at word 1. -/
theorem C10_chunk_by_size_terminates_windows_bounded_witness :
    (chunkBySizeGo (pyWords ("a b c d e" : String).data) 2 1
        ((pyWords ("a b c d e" : String).data).length + 1 + 7) 0 []).map String.mk =
      chunk_by_size "a b c d e" 2 1 ∧
    (chunk_by_size "a b c d e" 2 1).get? 1 =
      some (String.mk (joinSpace (((pyWords ("a b c d e" : String).data).drop
        (1 * (2 - 1))).take 2))) :=
  ⟨(C10_chunk_by_size_terminates_windows_bounded "a b c d e" 2 1 (by decide)).1 7,
   ((C10_chunk_by_size_terminates_windows_bounded "a b c d e" 2 1 (by decide)).2
      1 (by decide)).1⟩

/-- C9: `ingest_docs` clears the vector store before it checks that the
corpus path exists, so with a missing path it aborts with an error while the
store has already been emptied — the index is left empty, never unchanged
when it previously held chunks. -/
theorem C9_store_cleared_before_path_check (md5hex : String → String) (st : Settings)
    (embed : String → Except String (List ℚ)) (files : List MdFile)
    (store : List DocumentChunk) :
    ingest_docs md5hex st embed false files store =
      (Except.error "Documentation path does not exist", []) ∧
    ∀ c rest, (ingest_docs md5hex st embed false files (c :: rest)).2 ≠ c :: rest := by
  refine ⟨rfl, ?_⟩
  intro c rest h
  simp [ingest_docs] at h

end MkdocsRag
